import Mathlib

/-
Verification development for the Cloud-360 reporting scripts
(EC2_report.py, RDS_report.py, ECS_report.py, main.py).

Numeric metric samples are modelled as exact rationals; Python's
two-decimal float formatting f-string rule is modelled on rationals with
rounding to the nearest hundredth (all concrete values appearing below
are tie-free, so the model agrees with CPython's formatting there).
-/

/-- Two-digit zero-padded rendering of a natural number below 100,
used for the fractional part of two-decimal formatting. -/
def pad2 (k : ℕ) : String :=
  if k < 10 then "0" ++ toString k else toString k

/-- Renders an integer amount of hundredths as a decimal string with
exactly two digits after the point. -/
def renderCents (n : ℤ) : String :=
  if n < 0 then
    "-" ++ toString ((-n).toNat / 100) ++ "." ++ pad2 ((-n).toNat % 100)
  else
    toString (n.toNat / 100) ++ "." ++ pad2 (n.toNat % 100)

/-- Model of Python's two-decimal formatting of a numeric
value, on exact rationals. -/
def pyFormat2 (q : ℚ) : String :=
  renderCents (round (q * 100))

/-- Whether the first list is an initial segment of the second. -/
def leadsWith : List Char → List Char → Bool
  | [], _ => true
  | _ :: _, [] => false
  | a :: as, b :: bs => a == b && leadsWith as bs

/-- Whether `needle` occurs contiguously inside the second list. -/
def containsSub (needle : List Char) : List Char → Bool
  | [] => needle.isEmpty
  | c :: t => leadsWith needle (c :: t) || containsSub needle t

/-- Model of Python's substring test `needle in hay` on strings. -/
def strContains (hay needle : String) : Bool :=
  containsSub needle.toList hay.toList

/-- EC2_report.py: the fixed EC2 metric name list. -/
def EC2_METRICS : List String :=
  ["CPUCreditUsage", "CPUUtilization", "MetadataNoToken", "CPUCreditBalance"]

/-- RDS_report.py: the fixed RDS metric name list. -/
def RDS_METRICS : List String :=
  ["CPUUtilization", "FreeableMemory", "WriteLatency", "ReadLatency", "Deadlocks",
   "DiskQueueDepth", "DatabaseConnections", "DeleteLatency", "LoginFailures",
   "SwapUsage", "SelectLatency", "ReadThroughput", "DDLLatency", "WriteIOPS",
   "CommitLatency", "ReadIOPS"]

/-- ECS_report.py: the fixed ECS metric name list. -/
def ECS_METRICS : List String :=
  ["CPUUtilization", "MemoryUtilization"]

namespace EC2

/-- EC2_report.py, format_metric_value: percent suffix for names containing
CPUUtilization, byte-to-GB division for names containing Bytes, plain
two-decimal otherwise. -/
def format_metric_value (value : ℚ) (metric_name : String) : String :=
  if strContains metric_name "CPUUtilization" then
    pyFormat2 value ++ "%"
  else if strContains metric_name "Bytes" then
    pyFormat2 (value / 1000000000) ++ " GB"
  else
    pyFormat2 value

end EC2

namespace RDS

/-- RDS_report.py, format_metric_value: percent suffix for names containing
CPUUtilization, byte-to-GB division for names containing FreeableMemory,
plain two-decimal otherwise. -/
def format_metric_value (value : ℚ) (metric_name : String) : String :=
  if strContains metric_name "CPUUtilization" then
    pyFormat2 value ++ "%"
  else if strContains metric_name "FreeableMemory" then
    pyFormat2 (value / 1000000000) ++ " GB"
  else
    pyFormat2 value

end RDS

namespace ECS

/-- ECS_report.py, format_metric_value: percent suffix for names containing
CPUUtilization or MemoryUtilization, plain two-decimal otherwise. -/
def format_metric_value (value : ℚ) (metric_name : String) : String :=
  if strContains metric_name "CPUUtilization" || strContains metric_name "MemoryUtilization" then
    pyFormat2 value ++ "%"
  else
    pyFormat2 value

end ECS

/-- C5: the metric value formatter renders a utilization value of 42.5 as
"42.50%" (EC2, RDS and ECS formatters) and a memory value of 2147483648
bytes as "2.15 GB" (RDS FreeableMemory rule and EC2 Bytes rule). -/
theorem format_metric_value_examples :
    EC2.format_metric_value (42.5 : ℚ) "CPUUtilization" = "42.50%"
    ∧ RDS.format_metric_value (42.5 : ℚ) "CPUUtilization" = "42.50%"
    ∧ ECS.format_metric_value (42.5 : ℚ) "CPUUtilization" = "42.50%"
    ∧ RDS.format_metric_value (2147483648 : ℚ) "FreeableMemory" = "2.15 GB"
    ∧ EC2.format_metric_value (2147483648 : ℚ) "VolumeReadBytes" = "2.15 GB" := by
  have h1 : round ((42.5 : ℚ) * 100) = 4250 := by norm_num [round_eq]
  have h2 : round ((2147483648 : ℚ) / 1000000000 * 100) = 215 := by norm_num [round_eq]
  refine ⟨?_, ?_, ?_, ?_, ?_⟩
  · show pyFormat2 (42.5 : ℚ) ++ "%" = "42.50%"
    rw [pyFormat2, h1]; decide
  · show pyFormat2 (42.5 : ℚ) ++ "%" = "42.50%"
    rw [pyFormat2, h1]; decide
  · show pyFormat2 (42.5 : ℚ) ++ "%" = "42.50%"
    rw [pyFormat2, h1]; decide
  · show pyFormat2 ((2147483648 : ℚ) / 1000000000) ++ " GB" = "2.15 GB"
    rw [pyFormat2, h2]; decide
  · show pyFormat2 ((2147483648 : ℚ) / 1000000000) ++ " GB" = "2.15 GB"
    rw [pyFormat2, h2]; decide

/-- C6 counterexample: the claim says throughput metrics such as
ReadThroughput are rendered in gigabytes, but the RDS formatter applies the
plain two-decimal rule to ReadThroughput, so 2000000000 renders as
"2000000000.00" rather than "2.00 GB". -/
theorem format_throughput_not_gb :
    RDS.format_metric_value (2000000000 : ℚ) "ReadThroughput" = "2000000000.00"
    ∧ RDS.format_metric_value (2000000000 : ℚ) "ReadThroughput" ≠ "2.00 GB" := by
  have h : round ((2000000000 : ℚ) * 100) = 200000000000 := by norm_num [round_eq]
  have he : RDS.format_metric_value (2000000000 : ℚ) "ReadThroughput" = "2000000000.00" := by
    show pyFormat2 (2000000000 : ℚ) = "2000000000.00"
    rw [pyFormat2, h]; decide
  exact ⟨he, by rw [he]; decide⟩

/-- C6 amended: on each report's configured metric list, the formatter
applies the percentage suffix to utilization metrics, the byte-to-gigabyte
conversion to memory metrics only (EC2: names containing Bytes, of which
its list has none; RDS: FreeableMemory), and plain two-decimal formatting
otherwise — in particular throughput metrics such as ReadThroughput get the
plain rule, not gigabytes; the choice is pure substring matching on the
metric name. -/
theorem format_metric_value_by_name (v : ℚ) :
    (∀ m ∈ RDS_METRICS, RDS.format_metric_value v m =
      if m = "CPUUtilization" then pyFormat2 v ++ "%"
      else if m = "FreeableMemory" then pyFormat2 (v / 1000000000) ++ " GB"
      else pyFormat2 v)
    ∧ (∀ m ∈ ECS_METRICS, ECS.format_metric_value v m = pyFormat2 v ++ "%")
    ∧ (∀ m ∈ EC2_METRICS, EC2.format_metric_value v m =
      if m = "CPUUtilization" then pyFormat2 v ++ "%" else pyFormat2 v) := by
  refine ⟨?_, ?_, ?_⟩ <;> intro m hm <;>
    simp only [RDS_METRICS, ECS_METRICS, EC2_METRICS] at hm <;>
    fin_cases hm <;> rfl

/-- C6 amended, witness at concrete inputs. -/
theorem format_metric_value_by_name_witness :
    RDS.format_metric_value 1 "ReadThroughput" =
      (if "ReadThroughput" = "CPUUtilization" then pyFormat2 1 ++ "%"
       else if "ReadThroughput" = "FreeableMemory" then pyFormat2 ((1 : ℚ) / 1000000000) ++ " GB"
       else pyFormat2 1)
    ∧ ECS.format_metric_value 1 "MemoryUtilization" = pyFormat2 1 ++ "%"
    ∧ EC2.format_metric_value 1 "CPUCreditUsage" =
      (if "CPUCreditUsage" = "CPUUtilization" then pyFormat2 1 ++ "%" else pyFormat2 1) :=
  ⟨(format_metric_value_by_name 1).1 "ReadThroughput" (by decide),
   (format_metric_value_by_name 1).2.1 "MemoryUtilization" (by decide),
   (format_metric_value_by_name 1).2.2 "CPUCreditUsage" (by decide)⟩

/-- One entry of a get_metric_data result page. The query builder assigns
Id strings of the form m followed by the metric's index in the metric list,
and the collection loop recovers that index with int on the Id's tail, so
the Id is modelled directly by its integer index. -/
structure MetricDataResult where
  id : ℕ
  values : List ℚ
deriving DecidableEq

/-- Python dict update all_results at key m: append vs to the stored
list for that metric name. -/
def updateResults (m : String) (vs : List ℚ) (acc : List (String × List ℚ)) :
    List (String × List ℚ) :=
  acc.map (fun p => if p.1 = m then (p.1, p.2 ++ vs) else p)

/-- Inner loop over one page's MetricDataResults: each result's values
extend the accumulator entry of the metric at the result's Id index.
An index outside the metric list is a Python IndexError, modelled as
none (it is caught by the surrounding except like any other exception). -/
def applyResults (metric_list : List String) (acc : List (String × List ℚ)) :
    List MetricDataResult → Option (List (String × List ℚ))
  | [] => some acc
  | r :: rs =>
    match metric_list[r.id]? with
    | some m => applyResults metric_list (updateResults m r.values acc) rs
    | none => none

/-- Outer loop over the paginator's pages. -/
def applyPages (metric_list : List String) (acc : List (String × List ℚ)) :
    List (List MetricDataResult) → Option (List (String × List ℚ))
  | [] => some acc
  | p :: ps =>
    match applyResults metric_list acc p with
    | some acc2 => applyPages metric_list acc2 ps
    | none => none

/-- The collection phase of get_cloudwatch_metrics: all_results starts as
an empty list per metric name and is extended page by page. -/
def collectResults (metric_list : List String) (pages : List (List MetricDataResult)) :
    Option (List (String × List ℚ)) :=
  applyPages metric_list (metric_list.map (fun m => (m, ([] : List ℚ)))) pages

/-- First-match association lookup in the accumulator, the model of
reading the all_results dict at a metric name. -/
def assocGet (m : String) : List (String × List ℚ) → List ℚ
  | [] => []
  | (k, v) :: t => if k = m then v else assocGet m t

/-- Spec-side definition, following the spec's words: the sample values a
single page reports for metric m. -/
def specPageValues (metric_list : List String) (m : String)
    (page : List MetricDataResult) : List ℚ :=
  page.flatMap (fun r => if metric_list[r.id]? = some m then r.values else [])

/-- Spec-side definition, following the spec's words "concatenate returned
sample values per metric across pages". -/
def specConcatValues (metric_list : List String) (m : String)
    (pages : List (List MetricDataResult)) : List ℚ :=
  pages.flatMap (specPageValues metric_list m)

/-- The three derived cells for one metric: keys suffixed Min, Max, Avg. -/
def tripleCells (m : String) (a b c : String) : List (String × String) :=
  [(m ++ " Min", a), (m ++ " Max", b), (m ++ " Avg", c)]

/-- Python min over a nonempty list of samples. -/
def listMin (v : ℚ) (tl : List ℚ) : ℚ := tl.foldl min v

/-- Python max over a nonempty list of samples. -/
def listMax (v : ℚ) (tl : List ℚ) : ℚ := tl.foldl max v

/-- The reduction step of get_cloudwatch_metrics for one metric: the Nil
sentinel when no samples were returned, otherwise the formatted minimum,
maximum and arithmetic mean of the concatenated samples. -/
def metricCells (fmt : ℚ → String → String) (m : String) (vs : List ℚ) :
    List (String × String) :=
  match vs with
  | [] => tripleCells m "Nil" "Nil" "Nil"
  | v :: tl =>
    tripleCells m
      (fmt (listMin v tl) m)
      (fmt (listMax v tl) m)
      (fmt ((v :: tl).sum / ((v :: tl).length : ℚ)) m)

/-- Shared body of the three get_cloudwatch_metrics functions after the
query construction: the fetch outcome is either the paginated pages or an
exception; an exception (including a bad result Id) yields the Error
sentinel in all three cells of every metric of the batch. -/
def metricRowCells (fmt : ℚ → String → String) (metric_list : List String)
    (fetch : Except Unit (List (List MetricDataResult))) : List (String × String) :=
  match fetch with
  | .error _ => metric_list.flatMap (fun m => tripleCells m "Error" "Error" "Error")
  | .ok pages =>
    match collectResults metric_list pages with
    | none => metric_list.flatMap (fun m => tripleCells m "Error" "Error" "Error")
    | some results => results.flatMap (fun p => metricCells fmt p.1 p.2)

/-- First-match association lookup in a row, the model of reading a row
dict (or the corresponding spreadsheet cell) at a column name. -/
def lookupCell (row : List (String × String)) (k : String) : Option String :=
  match row with
  | [] => none
  | (k2, v) :: t => if k2 = k then some v else lookupCell t k

namespace EC2

/-- EC2_report.py, get_cloudwatch_metrics: a dict keyed Name first, then
the three derived cells per metric of the requested list. -/
def get_cloudwatch_metrics (resource_name : String) (metric_list : List String)
    (fetch : Except Unit (List (List MetricDataResult))) : List (String × String) :=
  ("Name", resource_name) :: metricRowCells format_metric_value metric_list fetch

end EC2

namespace RDS

/-- RDS_report.py, get_cloudwatch_metrics: identical to the EC2 version up
to the formatter. -/
def get_cloudwatch_metrics (resource_name : String) (metric_list : List String)
    (fetch : Except Unit (List (List MetricDataResult))) : List (String × String) :=
  ("Name", resource_name) :: metricRowCells format_metric_value metric_list fetch

end RDS

namespace ECS

/-- ECS_report.py, get_cloudwatch_metrics: only the derived cells for the
fixed ECS metric list, no Name key (the stats dict is merged into the
service's inventory row). The cluster and service names only enter the
query dimensions, which are part of the fetch outcome here. -/
def get_cloudwatch_metrics (fetch : Except Unit (List (List MetricDataResult))) :
    List (String × String) :=
  metricRowCells format_metric_value ECS_METRICS fetch

end ECS

lemma updateResults_cons (m : String) (vs : List ℚ) (k : String) (v : List ℚ)
    (t : List (String × List ℚ)) :
    updateResults m vs ((k, v) :: t) =
      (if k = m then ((k, v ++ vs) : String × List ℚ) else (k, v)) :: updateResults m vs t := by
  simp only [updateResults, List.map_cons]

lemma assocGet_cons (m' k : String) (v : List ℚ) (t : List (String × List ℚ)) :
    assocGet m' ((k, v) :: t) = if k = m' then v else assocGet m' t := rfl

lemma updateResults_keys (m : String) (vs : List ℚ) (acc : List (String × List ℚ)) :
    (updateResults m vs acc).map Prod.fst = acc.map Prod.fst := by
  induction acc with
  | nil => rfl
  | cons p t ih =>
    obtain ⟨k, v⟩ := p
    rw [updateResults_cons]
    by_cases h : k = m
    · rw [if_pos h]
      simp only [List.map_cons, ih]
    · rw [if_neg h]
      simp only [List.map_cons, ih]

lemma assocGet_updateResults_ne (m m' : String) (vs : List ℚ)
    (acc : List (String × List ℚ)) (h : m' ≠ m) :
    assocGet m' (updateResults m vs acc) = assocGet m' acc := by
  induction acc with
  | nil => rfl
  | cons p t ih =>
    obtain ⟨k, v⟩ := p
    rw [updateResults_cons]
    by_cases hk : k = m
    · have hk2 : k ≠ m' := by rw [hk]; exact fun hh => h hh.symm
      rw [if_pos hk, assocGet_cons, assocGet_cons, if_neg hk2, if_neg hk2, ih]
    · by_cases hk2 : k = m'
      · rw [if_neg hk, assocGet_cons, assocGet_cons, if_pos hk2, if_pos hk2]
      · rw [if_neg hk, assocGet_cons, assocGet_cons, if_neg hk2, if_neg hk2, ih]

lemma assocGet_updateResults_self (m : String) (vs : List ℚ)
    (acc : List (String × List ℚ)) (hmem : m ∈ acc.map Prod.fst) :
    assocGet m (updateResults m vs acc) = assocGet m acc ++ vs := by
  induction acc with
  | nil => simp at hmem
  | cons p t ih =>
    obtain ⟨k, v⟩ := p
    rw [updateResults_cons]
    by_cases hk : k = m
    · rw [if_pos hk, assocGet_cons, assocGet_cons, if_pos hk, if_pos hk]
    · have hmem2 : m ∈ t.map Prod.fst := by
        simp only [List.map_cons, List.mem_cons] at hmem
        rcases hmem with h | h
        · exact absurd h.symm hk
        · exact h
      rw [if_neg hk, assocGet_cons, assocGet_cons, if_neg hk, if_neg hk, ih hmem2]

lemma applyResults_keys (ml : List String) (rs : List MetricDataResult) :
    ∀ acc acc2, applyResults ml acc rs = some acc2 →
      acc2.map Prod.fst = acc.map Prod.fst := by
  induction rs with
  | nil =>
    intro acc acc2 h
    simp only [applyResults, Option.some.injEq] at h
    rw [← h]
  | cons r t ih =>
    intro acc acc2 h
    simp only [applyResults] at h
    cases hg : ml[r.id]? with
    | none => rw [hg] at h; cases h
    | some m =>
      rw [hg] at h
      rw [ih _ _ h, updateResults_keys]

lemma applyResults_assocGet (ml : List String) (rs : List MetricDataResult) :
    ∀ acc acc2, acc.map Prod.fst = ml → applyResults ml acc rs = some acc2 →
      ∀ m', assocGet m' acc2 = assocGet m' acc ++ specPageValues ml m' rs := by
  induction rs with
  | nil =>
    intro acc acc2 _ h m'
    simp only [applyResults, Option.some.injEq] at h
    subst h
    simp [specPageValues]
  | cons r t ih =>
    intro acc acc2 hk h m'
    simp only [applyResults] at h
    cases hg : ml[r.id]? with
    | none => rw [hg] at h; cases h
    | some m =>
      rw [hg] at h
      have hk2 : (updateResults m r.values acc).map Prod.fst = ml := by
        rw [updateResults_keys]; exact hk
      have hrec := ih _ _ hk2 h m'
      have hmem : m ∈ acc.map Prod.fst := by
        rw [hk]; exact List.getElem?_mem hg
      by_cases hm : m' = m
      · subst hm
        rw [hrec, assocGet_updateResults_self _ _ _ hmem]
        simp [specPageValues, hg, List.append_assoc]
      · rw [hrec, assocGet_updateResults_ne _ _ _ _ hm]
        have hne : ¬ ml[r.id]? = some m' := by
          rw [hg]
          intro hc
          injection hc with hc
          exact hm hc.symm
        simp [specPageValues, hne]

lemma applyPages_keys (ml : List String) (ps : List (List MetricDataResult)) :
    ∀ acc acc2, applyPages ml acc ps = some acc2 →
      acc2.map Prod.fst = acc.map Prod.fst := by
  induction ps with
  | nil =>
    intro acc acc2 h
    simp only [applyPages, Option.some.injEq] at h
    rw [← h]
  | cons p t ih =>
    intro acc acc2 h
    simp only [applyPages] at h
    cases hg : applyResults ml acc p with
    | none => rw [hg] at h; cases h
    | some acc1 =>
      rw [hg] at h
      rw [ih _ _ h, applyResults_keys ml p _ _ hg]

lemma applyPages_assocGet (ml : List String) (ps : List (List MetricDataResult)) :
    ∀ acc acc2, acc.map Prod.fst = ml → applyPages ml acc ps = some acc2 →
      ∀ m', assocGet m' acc2 = assocGet m' acc ++ specConcatValues ml m' ps := by
  induction ps with
  | nil =>
    intro acc acc2 _ h m'
    simp only [applyPages, Option.some.injEq] at h
    subst h
    simp [specConcatValues]
  | cons p t ih =>
    intro acc acc2 hk h m'
    simp only [applyPages] at h
    cases hg : applyResults ml acc p with
    | none => rw [hg] at h; cases h
    | some acc1 =>
      rw [hg] at h
      have hk2 : acc1.map Prod.fst = ml := by
        rw [applyResults_keys ml p _ _ hg]; exact hk
      rw [ih _ _ hk2 h m', applyResults_assocGet ml p _ _ hk hg m']
      simp [specConcatValues, List.append_assoc]

lemma keys_init (ml : List String) :
    ((ml.map (fun m => (m, ([] : List ℚ)))).map Prod.fst) = ml := by
  induction ml with
  | nil => rfl
  | cons a t ih => simp only [List.map_cons, ih]

lemma assocGet_init (ml : List String) (m' : String) :
    assocGet m' (ml.map (fun m => (m, ([] : List ℚ)))) = [] := by
  induction ml with
  | nil => rfl
  | cons a t ih => by_cases h : a = m' <;> simp [assocGet, h, ih]

lemma collectResults_keys (ml : List String) (pages : List (List MetricDataResult))
    (results : List (String × List ℚ)) (h : collectResults ml pages = some results) :
    results.map Prod.fst = ml := by
  have := applyPages_keys ml pages _ _ h
  rw [this, keys_init]

lemma collectResults_assocGet (ml : List String) (pages : List (List MetricDataResult))
    (results : List (String × List ℚ)) (h : collectResults ml pages = some results)
    (m' : String) : assocGet m' results = specConcatValues ml m' pages := by
  have := applyPages_assocGet ml pages _ _ (keys_init ml) h m'
  rw [this, assocGet_init]
  simp

lemma assocGet_of_mem_nodup {acc : List (String × List ℚ)} {m : String} {vs : List ℚ}
    (hnd : (acc.map Prod.fst).Nodup) (hm : (m, vs) ∈ acc) : assocGet m acc = vs := by
  induction acc with
  | nil => cases hm
  | cons p t ih =>
    obtain ⟨k, v⟩ := p
    simp only [List.map_cons] at hnd
    rcases List.mem_cons.mp hm with hEq | hTail
    · cases hEq
      simp [assocGet]
    · have hk : k ≠ m := by
        intro hh
        subst hh
        exact (List.nodup_cons.mp hnd).1 (List.mem_map_of_mem Prod.fst hTail)
      simp only [assocGet, if_neg hk]
      exact ih (List.nodup_cons.mp hnd).2 hTail

lemma mem_assocGet_self {acc : List (String × List ℚ)} {m : String}
    (hmem : m ∈ acc.map Prod.fst) : (m, assocGet m acc) ∈ acc := by
  induction acc with
  | nil => simp at hmem
  | cons p t ih =>
    obtain ⟨k, v⟩ := p
    by_cases hk : k = m
    · subst hk
      simp [assocGet]
    · simp only [List.map_cons, List.mem_cons] at hmem
      rcases hmem with h | h
      · exact absurd h.symm hk
      · simp only [assocGet, if_neg hk]
        exact List.mem_cons_of_mem _ (ih h)

lemma string_data_append (a b : String) : (a ++ b).data = a.data ++ b.data := by
  cases a; cases b; rfl

lemma string_eq_of_data (a b : String) (h : a.data = b.data) : a = b := by
  cases a; cases b; cases h; rfl

lemma string_append_inj {a b c d : String} (h : a ++ c = b ++ d)
    (hl : c.length = d.length) : a = b ∧ c = d := by
  have hd : a.data ++ c.data = b.data ++ d.data := by
    rw [← string_data_append, ← string_data_append, h]
  obtain ⟨h1, h2⟩ := List.append_inj' hd hl
  exact ⟨string_eq_of_data _ _ h1, string_eq_of_data _ _ h2⟩

lemma key_ne_of_ne {m m' s s' : String} (hl : s.length = s'.length)
    (h : m ≠ m' ∨ s ≠ s') : m ++ s ≠ m' ++ s' := by
  intro hEq
  obtain ⟨h1, h2⟩ := string_append_inj hEq hl
  rcases h with h | h
  · exact h h1
  · exact h h2

lemma name_ne_key {m suf : String}
    (hsuf : suf = " Min" ∨ suf = " Max" ∨ suf = " Avg") :
    ("Name" : String) ≠ m ++ suf := by
  intro hEq
  have h0 : ("" : String) ++ "Name" = m ++ suf := hEq
  have hl : ("Name" : String).length = suf.length := by
    rcases hsuf with h | h | h <;> rw [h] <;> rfl
  obtain ⟨_, h2⟩ := string_append_inj h0 hl
  rcases hsuf with h | h | h <;> rw [h] at h2 <;> exact absurd h2 (by decide)

lemma lookupCell_cons (k2 k : String) (v : String) (t : List (String × String)) :
    lookupCell ((k2, v) :: t) k = if k2 = k then some v else lookupCell t k := rfl

lemma lookupCell_append_some {r1 r2 : List (String × String)} {k v : String}
    (h : lookupCell r1 k = some v) : lookupCell (r1 ++ r2) k = some v := by
  induction r1 with
  | nil => cases h
  | cons p t ih =>
    obtain ⟨k2, w⟩ := p
    rw [List.cons_append, lookupCell_cons]
    rw [lookupCell_cons] at h
    by_cases hk : k2 = k
    · rw [if_pos hk] at h ⊢; exact h
    · rw [if_neg hk] at h ⊢; exact ih h

lemma lookupCell_append_none {r1 r2 : List (String × String)} {k : String}
    (h : lookupCell r1 k = none) : lookupCell (r1 ++ r2) k = lookupCell r2 k := by
  induction r1 with
  | nil => rfl
  | cons p t ih =>
    obtain ⟨k2, w⟩ := p
    rw [List.cons_append, lookupCell_cons]
    rw [lookupCell_cons] at h
    by_cases hk : k2 = k
    · rw [if_pos hk] at h; cases h
    · rw [if_neg hk] at h ⊢; exact ih h

lemma lookupCell_triple_min (m a b c : String) :
    lookupCell (tripleCells m a b c) (m ++ " Min") = some a := by
  rw [tripleCells, lookupCell_cons, if_pos rfl]

lemma lookupCell_triple_max (m a b c : String) :
    lookupCell (tripleCells m a b c) (m ++ " Max") = some b := by
  have h1 : m ++ " Min" ≠ m ++ " Max" := key_ne_of_ne rfl (Or.inr (by decide))
  rw [tripleCells, lookupCell_cons, if_neg h1, lookupCell_cons, if_pos rfl]

lemma lookupCell_triple_avg (m a b c : String) :
    lookupCell (tripleCells m a b c) (m ++ " Avg") = some c := by
  have h1 : m ++ " Min" ≠ m ++ " Avg" := key_ne_of_ne rfl (Or.inr (by decide))
  have h2 : m ++ " Max" ≠ m ++ " Avg" := key_ne_of_ne rfl (Or.inr (by decide))
  rw [tripleCells, lookupCell_cons, if_neg h1, lookupCell_cons, if_neg h2,
    lookupCell_cons, if_pos rfl]

lemma lookupCell_triple_other {m m' : String} (a b c : String) (hne : m' ≠ m)
    {suf : String} (hsuf : suf = " Min" ∨ suf = " Max" ∨ suf = " Avg") :
    lookupCell (tripleCells m' a b c) (m ++ suf) = none := by
  have hl1 : (" Min" : String).length = suf.length := by
    rcases hsuf with h | h | h <;> rw [h] <;> rfl
  have hl2 : (" Max" : String).length = suf.length := by
    rcases hsuf with h | h | h <;> rw [h] <;> rfl
  have hl3 : (" Avg" : String).length = suf.length := by
    rcases hsuf with h | h | h <;> rw [h] <;> rfl
  have h1 : m' ++ " Min" ≠ m ++ suf := key_ne_of_ne hl1 (Or.inl hne)
  have h2 : m' ++ " Max" ≠ m ++ suf := key_ne_of_ne hl2 (Or.inl hne)
  have h3 : m' ++ " Avg" ≠ m ++ suf := key_ne_of_ne hl3 (Or.inl hne)
  rw [tripleCells, lookupCell_cons, if_neg h1, lookupCell_cons, if_neg h2,
    lookupCell_cons, if_neg h3]
  rfl

lemma lookupCell_triple_self {m suf : String} (a b c : String)
    (hsuf : suf = " Min" ∨ suf = " Max" ∨ suf = " Avg") :
    lookupCell (tripleCells m a b c) (m ++ suf) =
      some (if suf = " Min" then a else if suf = " Max" then b else c) := by
  rcases hsuf with h | h | h <;> subst h
  · rw [lookupCell_triple_min, if_pos rfl]
  · rw [lookupCell_triple_max, if_neg (by decide), if_pos rfl]
  · rw [lookupCell_triple_avg, if_neg (by decide), if_neg (by decide)]

lemma lookupCell_errorCells {ml : List String} {m suf : String}
    (hnd : ml.Nodup) (hm : m ∈ ml)
    (hsuf : suf = " Min" ∨ suf = " Max" ∨ suf = " Avg") :
    lookupCell (ml.flatMap (fun m2 => tripleCells m2 "Error" "Error" "Error")) (m ++ suf)
      = some "Error" := by
  induction ml with
  | nil => cases hm
  | cons m0 t ih =>
    rw [List.flatMap_cons]
    rcases List.mem_cons.mp hm with hEq | hTail
    · subst hEq
      have hsome : lookupCell (tripleCells m "Error" "Error" "Error") (m ++ suf)
          = some "Error" := by
        rcases hsuf with h | h | h <;> subst h
        · exact lookupCell_triple_min _ _ _ _
        · exact lookupCell_triple_max _ _ _ _
        · exact lookupCell_triple_avg _ _ _ _
      exact lookupCell_append_some hsome
    · have hne : m0 ≠ m := by
        intro hh
        subst hh
        exact (List.nodup_cons.mp hnd).1 hTail
      have hnone := lookupCell_triple_other "Error" "Error" "Error" hne hsuf
      rw [lookupCell_append_none hnone]
      exact ih (List.nodup_cons.mp hnd).2 hTail

lemma lookupCell_metricCells_isSome (fmt : ℚ → String → String) (m : String)
    (vs : List ℚ) {suf : String}
    (hsuf : suf = " Min" ∨ suf = " Max" ∨ suf = " Avg") :
    ∃ w, lookupCell (metricCells fmt m vs) (m ++ suf) = some w := by
  cases vs <;> rcases hsuf with h | h | h <;> subst h <;>
    first
      | exact ⟨_, lookupCell_triple_min _ _ _ _⟩
      | exact ⟨_, lookupCell_triple_max _ _ _ _⟩
      | exact ⟨_, lookupCell_triple_avg _ _ _ _⟩

lemma lookupCell_resultsCells (fmt : ℚ → String → String)
    {results : List (String × List ℚ)} {m : String} {vs : List ℚ} {suf : String}
    (hnd : (results.map Prod.fst).Nodup) (hm : (m, vs) ∈ results)
    (hsuf : suf = " Min" ∨ suf = " Max" ∨ suf = " Avg") :
    lookupCell (results.flatMap (fun p => metricCells fmt p.1 p.2)) (m ++ suf)
      = lookupCell (metricCells fmt m vs) (m ++ suf) := by
  induction results with
  | nil => cases hm
  | cons p t ih =>
    obtain ⟨m0, vs0⟩ := p
    rw [List.flatMap_cons]
    simp only [List.map_cons] at hnd
    rcases List.mem_cons.mp hm with hEq | hTail
    · cases hEq
      obtain ⟨w, hw⟩ := lookupCell_metricCells_isSome fmt m vs hsuf
      rw [lookupCell_append_some hw, hw]
    · have hne : m0 ≠ m := by
        intro hh
        subst hh
        exact (List.nodup_cons.mp hnd).1 (List.mem_map_of_mem Prod.fst hTail)
      have hnone : lookupCell (metricCells fmt m0 vs0) (m ++ suf) = none := by
        cases vs0
        · exact lookupCell_triple_other _ _ _ hne hsuf
        · exact lookupCell_triple_other _ _ _ hne hsuf
      rw [lookupCell_append_none hnone]
      exact ih (List.nodup_cons.mp hnd).2 hTail

lemma lookupCell_cons_name {x : String} {row : List (String × String)} {m suf : String}
    (hsuf : suf = " Min" ∨ suf = " Max" ∨ suf = " Avg") :
    lookupCell (("Name", x) :: row) (m ++ suf) = lookupCell row (m ++ suf) := by
  rw [lookupCell_cons, if_neg (@name_ne_key m suf hsuf)]

lemma listMin_mem (v : ℚ) (tl : List ℚ) : listMin v tl ∈ v :: tl := by
  induction tl generalizing v with
  | nil => simp [listMin]
  | cons a t ih =>
    have h := ih (min v a)
    rw [listMin] at h ⊢
    simp only [List.foldl_cons]
    rcases List.mem_cons.mp h with h1 | h1
    · rcases min_choice v a with hm | hm
      · rw [h1, hm]; exact List.mem_cons_self _ _
      · rw [h1, hm]; exact List.mem_cons_of_mem _ (List.mem_cons_self _ _)
    · exact List.mem_cons_of_mem _ (List.mem_cons_of_mem _ h1)

lemma listMin_le (v : ℚ) (tl : List ℚ) : ∀ x ∈ v :: tl, listMin v tl ≤ x := by
  induction tl generalizing v with
  | nil =>
    intro x hx
    simp only [List.mem_singleton] at hx
    simp [listMin, hx]
  | cons a t ih =>
    intro x hx
    have hfold : listMin v (a :: t) = listMin (min v a) t := by
      simp [listMin, List.foldl_cons]
    have hself : listMin (min v a) t ≤ min v a := ih (min v a) _ (List.mem_cons_self _ _)
    rcases List.mem_cons.mp hx with h1 | h1
    · rw [hfold, h1]
      exact le_trans hself (min_le_left _ _)
    · rcases List.mem_cons.mp h1 with h2 | h2
      · rw [hfold, h2]
        exact le_trans hself (min_le_right _ _)
      · rw [hfold]
        exact ih (min v a) x (List.mem_cons_of_mem _ h2)

lemma listMax_mem (v : ℚ) (tl : List ℚ) : listMax v tl ∈ v :: tl := by
  induction tl generalizing v with
  | nil => simp [listMax]
  | cons a t ih =>
    have h := ih (max v a)
    rw [listMax] at h ⊢
    simp only [List.foldl_cons]
    rcases List.mem_cons.mp h with h1 | h1
    · rcases max_choice v a with hm | hm
      · rw [h1, hm]; exact List.mem_cons_self _ _
      · rw [h1, hm]; exact List.mem_cons_of_mem _ (List.mem_cons_self _ _)
    · exact List.mem_cons_of_mem _ (List.mem_cons_of_mem _ h1)

lemma listMax_ge (v : ℚ) (tl : List ℚ) : ∀ x ∈ v :: tl, x ≤ listMax v tl := by
  induction tl generalizing v with
  | nil =>
    intro x hx
    simp only [List.mem_singleton] at hx
    simp [listMax, hx]
  | cons a t ih =>
    intro x hx
    have hfold : listMax v (a :: t) = listMax (max v a) t := by
      simp [listMax, List.foldl_cons]
    have hself : max v a ≤ listMax (max v a) t := ih (max v a) _ (List.mem_cons_self _ _)
    rcases List.mem_cons.mp hx with h1 | h1
    · rw [hfold, h1]
      exact le_trans (le_max_left _ _) hself
    · rcases List.mem_cons.mp h1 with h2 | h2
      · rw [hfold, h2]
        exact le_trans (le_max_right _ _) hself
      · rw [hfold]
        exact ih (max v a) x (List.mem_cons_of_mem _ h2)

/-- C1: for a metric whose collected sample list is non-empty, the value
list held in all_results is exactly the concatenation of the returned
sample values for that metric across all pages, and the derived cells are
the formatted minimum, maximum and arithmetic mean of that list (the
reduction really returns the least element, the greatest element, and
sum over length). -/
theorem metric_aggregation_minmaxavg (metricList : List String)
    (pages : List (List MetricDataResult)) (results : List (String × List ℚ))
    (m : String) (v : ℚ) (tl : List ℚ)
    (hnd : metricList.Nodup) (hc : collectResults metricList pages = some results)
    (hm : (m, v :: tl) ∈ results) :
    v :: tl = specConcatValues metricList m pages
    ∧ listMin v tl ∈ v :: tl ∧ (∀ x ∈ v :: tl, listMin v tl ≤ x)
    ∧ listMax v tl ∈ v :: tl ∧ (∀ x ∈ v :: tl, x ≤ listMax v tl)
    ∧ ∀ fmt : ℚ → String → String, metricCells fmt m (v :: tl) =
        tripleCells m (fmt (listMin v tl) m) (fmt (listMax v tl) m)
          (fmt ((v :: tl).sum / ((v :: tl).length : ℚ)) m) := by
  have hkeys := collectResults_keys metricList pages results hc
  have hnd2 : (results.map Prod.fst).Nodup := by rw [hkeys]; exact hnd
  have h1 : assocGet m results = v :: tl := assocGet_of_mem_nodup hnd2 hm
  have h2 := collectResults_assocGet metricList pages results hc m
  exact ⟨by rw [← h1, h2], listMin_mem v tl, listMin_le v tl,
    listMax_mem v tl, listMax_ge v tl, fun fmt => rfl⟩

/-- C1 witness: with the sample series 10, 20 split across two pages and 30
on a second page for the first EC2 metric, the collected list is the
concatenation 10, 20, 30 and the derived cells are Min 10.00, Max 30.00,
Avg 20.00 under the EC2 formatter's plain rule. -/
theorem metric_aggregation_minmaxavg_witness :
    ((10 : ℚ) :: [20, 30] =
      specConcatValues EC2_METRICS "CPUCreditUsage" [[⟨0, [10, 20]⟩], [⟨0, [30]⟩]])
    ∧ listMin 10 [20, 30] ∈ (10 : ℚ) :: [20, 30]
    ∧ listMin 10 [20, 30] ≤ 30
    ∧ listMax 10 [20, 30] ∈ (10 : ℚ) :: [20, 30]
    ∧ (10 : ℚ) ≤ listMax 10 [20, 30]
    ∧ metricCells EC2.format_metric_value "CPUCreditUsage" ((10 : ℚ) :: [20, 30]) =
        tripleCells "CPUCreditUsage" "10.00" "30.00" "20.00" := by
  have h := metric_aggregation_minmaxavg EC2_METRICS [[⟨0, [10, 20]⟩], [⟨0, [30]⟩]]
    [("CPUCreditUsage", [10, 20, 30]), ("CPUUtilization", []),
     ("MetadataNoToken", []), ("CPUCreditBalance", [])]
    "CPUCreditUsage" 10 [20, 30] (by decide) (by decide) (by decide)
  refine ⟨h.1, h.2.1, h.2.2.1 30 (by decide), h.2.2.2.1, h.2.2.2.2.1 10 (by decide), ?_⟩
  rw [h.2.2.2.2.2 EC2.format_metric_value]
  have hmin : listMin (10 : ℚ) [20, 30] = 10 := by decide
  have hmax : listMax (10 : ℚ) [20, 30] = 30 := by decide
  have havg : (((10 : ℚ) :: [20, 30]).sum / (((10 : ℚ) :: [20, 30]).length : ℚ)) = 20 := by
    norm_num [List.sum_cons, List.sum_nil]
  rw [hmin, hmax, havg]
  have f10 : EC2.format_metric_value (10 : ℚ) "CPUCreditUsage" = "10.00" := by
    show pyFormat2 (10 : ℚ) = "10.00"
    have : round ((10 : ℚ) * 100) = 1000 := by norm_num [round_eq]
    rw [pyFormat2, this]; decide
  have f30 : EC2.format_metric_value (30 : ℚ) "CPUCreditUsage" = "30.00" := by
    show pyFormat2 (30 : ℚ) = "30.00"
    have : round ((30 : ℚ) * 100) = 3000 := by norm_num [round_eq]
    rw [pyFormat2, this]; decide
  have f20 : EC2.format_metric_value (20 : ℚ) "CPUCreditUsage" = "20.00" := by
    show pyFormat2 (20 : ℚ) = "20.00"
    have : round ((20 : ℚ) * 100) = 2000 := by norm_num [round_eq]
    rw [pyFormat2, this]; decide
  rw [f10, f30, f20]

/-- C3: for a requested metric with zero samples over the whole window, the
Min, Max and Avg cells all hold the Nil sentinel, both in the shared cell
builder and in the EC2 and RDS rows that prefix the Name cell. -/
theorem metric_nil_sentinel (fmt : ℚ → String → String) (name : String)
    (metricList : List String) (pages : List (List MetricDataResult))
    (results : List (String × List ℚ)) (m suf : String)
    (hnd : metricList.Nodup) (hc : collectResults metricList pages = some results)
    (hm : m ∈ metricList) (hz : specConcatValues metricList m pages = [])
    (hsuf : suf = " Min" ∨ suf = " Max" ∨ suf = " Avg") :
    lookupCell (metricRowCells fmt metricList (Except.ok pages)) (m ++ suf) = some "Nil"
    ∧ lookupCell (EC2.get_cloudwatch_metrics name metricList (Except.ok pages)) (m ++ suf)
        = some "Nil"
    ∧ lookupCell (RDS.get_cloudwatch_metrics name metricList (Except.ok pages)) (m ++ suf)
        = some "Nil" := by
  have hkeys := collectResults_keys metricList pages results hc
  have hnd2 : (results.map Prod.fst).Nodup := by rw [hkeys]; exact hnd
  have hmem : m ∈ results.map Prod.fst := by rw [hkeys]; exact hm
  have hget : assocGet m results = [] := by
    rw [collectResults_assocGet metricList pages results hc m, hz]
  have hmm : (m, ([] : List ℚ)) ∈ results := by
    have h := mem_assocGet_self hmem
    rw [hget] at h
    exact h
  have key : ∀ g : ℚ → String → String,
      lookupCell (metricRowCells g metricList (Except.ok pages)) (m ++ suf) = some "Nil" := by
    intro g
    have hrow : metricRowCells g metricList (Except.ok pages)
        = results.flatMap (fun p => metricCells g p.1 p.2) := by
      simp only [metricRowCells, hc]
    rw [hrow, lookupCell_resultsCells g hnd2 hmm hsuf]
    rcases hsuf with h | h | h <;> subst h
    · exact lookupCell_triple_min _ _ _ _
    · exact lookupCell_triple_max _ _ _ _
    · exact lookupCell_triple_avg _ _ _ _
  refine ⟨key fmt, ?_, ?_⟩
  · simp only [EC2.get_cloudwatch_metrics]
    rw [lookupCell_cons_name hsuf]
    exact key _
  · simp only [RDS.get_cloudwatch_metrics]
    rw [lookupCell_cons_name hsuf]
    exact key _

/-- C3 witness: one page reporting a sample only for the second EC2 metric
leaves the first metric with zero samples, and its Min cell is Nil. -/
theorem metric_nil_sentinel_witness :
    lookupCell (metricRowCells EC2.format_metric_value EC2_METRICS
        (Except.ok [[⟨1, [7]⟩]])) ("CPUCreditUsage" ++ " Min") = some "Nil"
    ∧ lookupCell (EC2.get_cloudwatch_metrics "web-1" EC2_METRICS
        (Except.ok [[⟨1, [7]⟩]])) ("CPUCreditUsage" ++ " Min") = some "Nil"
    ∧ lookupCell (RDS.get_cloudwatch_metrics "web-1" EC2_METRICS
        (Except.ok [[⟨1, [7]⟩]])) ("CPUCreditUsage" ++ " Min") = some "Nil" :=
  metric_nil_sentinel EC2.format_metric_value "web-1" EC2_METRICS [[⟨1, [7]⟩]]
    [("CPUCreditUsage", []), ("CPUUtilization", [7]),
     ("MetadataNoToken", []), ("CPUCreditBalance", [])]
    "CPUCreditUsage" " Min" (by decide) (by decide) (by decide) (by decide) (Or.inl rfl)

/-- Last-wins lookup in a key-value list, the model of building a Python
dict by comprehension and reading it back: a later entry for the same key
overwrites an earlier one. -/
def dictLast {α : Type} (l : List (String × α)) (k : String) : Option α :=
  (l.reverse.find? (fun p => p.1 == k)).map Prod.snd

/-- One EC2 instance as returned by DescribeInstances. LaunchTime is kept
as the strftime-rendered string since no claim concerns date formatting;
fields the code reads with a dict default are Options. -/
structure Ec2Instance where
  instanceId : String
  stateName : String
  instanceType : String
  tags : List (String × String)
  availabilityZone : String
  publicDnsName : Option String
  publicIpAddress : Option String
  ipv6Addresses : List String
  monitoringState : String
  securityGroupNames : List String
  keyName : Option String
  launchTimeStr : String
  platformDetails : Option String
  privateDnsName : String
deriving DecidableEq

/-- The EC2 report's view of AWS: the DescribeInstances fleet (or an
exception from any of the three inventory calls), the
DescribeInstanceStatus entries (id, system status, instance status), the
DescribeAddresses entries (optional instance id, public ip), the
DescribeAlarmsForMetric alarm list per instance id, and the
get_metric_data outcome per instance id. -/
structure Ec2Env where
  listing : Except Unit (List Ec2Instance)
  instanceStatuses : List (String × String × String)
  addresses : List (Option String × String)
  metricAlarms : String → List String
  fetchMetrics : String → Except Unit (List (List MetricDataResult))

/-- EC2_report.py, get_instance_name: value of the Name tag, N/A if none. -/
def get_instance_name (tags : List (String × String)) : String :=
  match tags.find? (fun t => t.1 == "Name") with
  | some t => t.2
  | none => "N/A"

/-- The status_map entry check: both system and instance status ok. -/
def statusCheckOf (st : Option (String × String)) : String :=
  match st with
  | some p => if p.1 = "ok" ∧ p.2 = "ok" then "2/2 checks passed" else "N/A"
  | none => "N/A"

/-- The ip_map of get_ec2_instance_details: addresses carrying an
InstanceId, keyed by it. -/
def ipMapGet (addresses : List (Option String × String)) (k : String) : Option String :=
  dictLast (addresses.filterMap (fun a => a.1.map (fun i => (i, a.2)))) k

/-- One row of the EC2 inventory table, field per dict key of
get_ec2_instance_details. -/
structure Ec2DetailRow where
  name : String
  instanceId : String
  instanceState : String
  instanceType : String
  statusCheck : String
  alarmStatus : String
  availabilityZone : String
  publicDnsName : String
  publicIpAddress : String
  elasticIp : String
  ipv6Ips : String
  monitoring : String
  securityGroupName : String
  keyName : String
  launchTime : String
  platformDetails : String
  managed : String
  operator : String
  hostnameType : String
  computeOptimizerFinding : String
deriving DecidableEq

/-- Models the server-side instance-state-name filter the DescribeInstances
paginator is given (values running and stopped): AWS returns exactly the
instances whose state name matches one of the filter values. -/
def awsFilterInstances (fleet : List Ec2Instance) : List Ec2Instance :=
  fleet.filter (fun i => i.stateName == "running" || i.stateName == "stopped")

/-- The inventory dict built per instance in get_ec2_instance_details. -/
def ec2DetailRow (e : Ec2Env) (i : Ec2Instance) : Ec2DetailRow :=
  { name := get_instance_name i.tags
    instanceId := i.instanceId
    instanceState := i.stateName
    instanceType := i.instanceType
    statusCheck := statusCheckOf (dictLast e.instanceStatuses i.instanceId)
    alarmStatus := if e.metricAlarms i.instanceId ≠ [] then "View alarms" else "No alarms"
    availabilityZone := i.availabilityZone
    publicDnsName := i.publicDnsName.getD "–"
    publicIpAddress := i.publicIpAddress.getD "–"
    elasticIp := (ipMapGet e.addresses i.instanceId).getD "–"
    ipv6Ips := String.intercalate ", " i.ipv6Addresses
    monitoring := i.monitoringState
    securityGroupName := String.intercalate ", " i.securityGroupNames
    keyName := i.keyName.getD "–"
    launchTime := i.launchTimeStr
    platformDetails := i.platformDetails.getD "Linux/UNIX"
    managed := "FALSE"
    operator := "–"
    hostnameType := "ip-name: " ++ i.privateDnsName
    computeOptimizerFinding := "Enable Opt In" }

/-- EC2_report.py, get_ec2_instance_details: the filtered, paginated
DescribeInstances listing, one inventory row per instance (pages and
reservations flattened in order, which is what the nested for loops do). -/
def get_ec2_instance_details (e : Ec2Env) (fleet : List Ec2Instance) : List Ec2DetailRow :=
  (awsFilterInstances fleet).map (ec2DetailRow e)

/-- Observable outcome of one EC2 or RDS report run: which resource keys
had a metric query issued, and the exported pair of tables (inventory
then metrics) if the spreadsheet was written. -/
structure Ec2ReportResult where
  metricFetches : List String
  exported : Option (List Ec2DetailRow × List (List (String × String)))
deriving DecidableEq

namespace EC2

/-- EC2_report.py, main: on a listing exception the outer except catches
and nothing is fetched or written; on an empty inventory it returns before
the metric queries; otherwise one metric row per inventory row (dimension
value and fetch key the Instance ID, row name the Name tag) and both
tables are written to the spreadsheet. -/
def main (e : Ec2Env) : Ec2ReportResult :=
  match e.listing with
  | .error _ => ⟨[], none⟩
  | .ok fleet =>
    let details := get_ec2_instance_details e fleet
    if details = [] then ⟨[], none⟩
    else
      ⟨details.map (fun d => d.instanceId),
       some (details, details.map (fun d =>
         get_cloudwatch_metrics d.name EC2_METRICS (e.fetchMetrics d.instanceId)))⟩

end EC2

/-- One RDS instance as returned by DescribeDBInstances. -/
structure RdsInstance where
  dbInstanceIdentifier : String
  dbInstanceClass : String
  engine : String
  dbInstanceStatus : String
  multiAZ : Bool
  availabilityZone : String
  storageType : String
  allocatedStorage : ℤ
deriving DecidableEq

/-- One row of the RDS inventory table; AllocatedStorage is rendered with
a GB suffix by the f-string in get_rds_instance_details. -/
structure RdsDetailRow where
  dbInstanceIdentifier : String
  dbInstanceClass : String
  engine : String
  dbInstanceStatus : String
  multiAZ : Bool
  availabilityZone : String
  storageType : String
  allocatedStorage : String
deriving DecidableEq

/-- RDS_report.py, get_rds_instance_details: the paginated
DescribeDBInstances listing, one row per database (pages flattened). -/
def get_rds_instance_details (dbs : List RdsInstance) : List RdsDetailRow :=
  dbs.map (fun db =>
    { dbInstanceIdentifier := db.dbInstanceIdentifier
      dbInstanceClass := db.dbInstanceClass
      engine := db.engine
      dbInstanceStatus := db.dbInstanceStatus
      multiAZ := db.multiAZ
      availabilityZone := db.availabilityZone
      storageType := db.storageType
      allocatedStorage := toString db.allocatedStorage ++ " GB" })

/-- The RDS report's view of AWS. -/
structure RdsEnv where
  listing : Except Unit (List RdsInstance)
  fetchMetrics : String → Except Unit (List (List MetricDataResult))

/-- Observable outcome of one RDS report run. -/
structure RdsReportResult where
  metricFetches : List String
  exported : Option (List RdsDetailRow × List (List (String × String)))
deriving DecidableEq

namespace RDS

/-- RDS_report.py, main: same shape as the EC2 main; the resource key for
the dimension, the fetch and the metric row's Name cell is the
DBInstanceIdentifier. -/
def main (r : RdsEnv) : RdsReportResult :=
  match r.listing with
  | .error _ => ⟨[], none⟩
  | .ok dbs =>
    let details := get_rds_instance_details dbs
    if details = [] then ⟨[], none⟩
    else
      ⟨details.map (fun d => d.dbInstanceIdentifier),
       some (details, details.map (fun d =>
         get_cloudwatch_metrics d.dbInstanceIdentifier RDS_METRICS
           (r.fetchMetrics d.dbInstanceIdentifier)))⟩

end RDS

/-- One ECS service as returned by DescribeServices; fields the code reads
with a default are Options. -/
structure EcsService where
  serviceName : String
  serviceArn : String
  status : String
  launchType : Option String
  desiredCount : ℕ
  runningCount : ℕ
  taskDefinition : String
deriving DecidableEq

/-- One ECS cluster with the services ListServices and DescribeServices
report for it (pagination and the batches of 10 flattened in order). -/
structure EcsCluster where
  clusterArn : String
  services : List EcsService
deriving DecidableEq

/-- The cluster name extraction cluster_arn.split on slash, last part. -/
def clusterNameOfArn (arn : String) : String :=
  (arn.splitOn "/").getLastD arn

/-- The ECS report's view of AWS: the cluster listing (or an exception
from ListClusters, ListServices or DescribeServices) and the
get_metric_data outcome per cluster name and service name. -/
structure EcsEnv where
  listing : Except Unit (List EcsCluster)
  fetchMetrics : String → String → Except Unit (List (List MetricDataResult))

/-- One combined ECS row: the service's inventory cells followed by the
merged stats cells (the ** unpacking in get_ecs_report_data). Counts are
rendered to strings for the tabular model. -/
def ecsServiceRow (cluster_name : String) (s : EcsService)
    (stats : List (String × String)) : List (String × String) :=
  [("Cluster", cluster_name), ("Service Name", s.serviceName), ("ARN", s.serviceArn),
   ("Status", s.status), ("Launch Type", s.launchType.getD "EC2"),
   ("Desired Tasks", toString s.desiredCount), ("Running Tasks", toString s.runningCount),
   ("Task Definition", s.taskDefinition)] ++ stats

/-- ECS_report.py, get_ecs_report_data: for every cluster and every service
in it, fetch the service's metrics and build the combined row. -/
def get_ecs_report_data (c : EcsEnv) (clusters : List EcsCluster) :
    List (List (String × String)) :=
  clusters.flatMap (fun cl =>
    cl.services.map (fun s =>
      ecsServiceRow (clusterNameOfArn cl.clusterArn) s
        (ECS.get_cloudwatch_metrics
          (c.fetchMetrics (clusterNameOfArn cl.clusterArn) s.serviceName))))

/-- The cluster and service name pairs for which get_ecs_report_data
issues a metric query, in order. -/
def ecsFetchKeys (clusters : List EcsCluster) : List (String × String) :=
  clusters.flatMap (fun cl =>
    cl.services.map (fun s => (clusterNameOfArn cl.clusterArn, s.serviceName)))

/-- ECS_report.py, main: the fixed column selection and order. -/
def ECS_FINAL_COLUMNS : List String :=
  ["Cluster", "Service Name", "ARN", "Status", "Launch Type", "Desired Tasks",
   "Running Tasks", "Task Definition", "CPUUtilization Min", "CPUUtilization Max",
   "CPUUtilization Avg", "MemoryUtilization Min", "MemoryUtilization Max",
   "MemoryUtilization Avg"]

/-- df.reindex on the final columns: every row keeps exactly those columns
in that order; a missing value (pandas NaN) is modelled as the empty
string. -/
def ecsReindex (row : List (String × String)) : List (String × String) :=
  ECS_FINAL_COLUMNS.map (fun k => (k, (lookupCell row k).getD ""))

/-- Observable outcome of one ECS report run: the metric queries issued
while building the report data, and the exported single table if written. -/
structure EcsReportResult where
  metricFetches : List (String × String)
  exported : Option (List (List (String × String)))
deriving DecidableEq

namespace ECS

/-- ECS_report.py, main: the metric queries happen inside
get_ecs_report_data before the emptiness check; with no report data the
export is skipped, otherwise the reindexed table is written. -/
def main (c : EcsEnv) : EcsReportResult :=
  match c.listing with
  | .error _ => ⟨[], none⟩
  | .ok clusters =>
    let rows := get_ecs_report_data c clusters
    if rows = [] then ⟨ecsFetchKeys clusters, none⟩
    else ⟨ecsFetchKeys clusters, some (rows.map ecsReindex)⟩

end ECS

/-- The observable steps of main.py in order: each report is started, and
a report whose call raises contributes a logged failure step. -/
inductive OrchStep where
  | ec2Run
  | ec2Failed
  | rdsRun
  | rdsFailed
  | ecsRun
  | ecsFailed
deriving DecidableEq

namespace MainPy

/-- main.py, main: three try blocks in sequence, one per report; an
exception from a report is caught and logged and the next block still
runs. The Except argument stands for the outcome of the report call. -/
def main (e r c : Except Unit Unit) : List OrchStep :=
  (OrchStep.ec2Run :: (match e with | .ok _ => [] | .error _ => [OrchStep.ec2Failed]))
  ++ (OrchStep.rdsRun :: (match r with | .ok _ => [] | .error _ => [OrchStep.rdsFailed]))
  ++ (OrchStep.ecsRun :: (match c with | .ok _ => [] | .error _ => [OrchStep.ecsFailed]))

end MainPy

/-- Sample running instance for concrete runs. -/
def iRunning : Ec2Instance :=
  ⟨"i-0aaa", "running", "t3.micro", [("Name", "web-1")], "ap-south-1a",
   some "ec2.example.com", some "1.2.3.4", [], "disabled", ["default"],
   some "kp", "2024/01/01 00:00 GMT+5:30", some "Linux/UNIX", "ip-10-0-0-1"⟩

/-- Sample pending instance, filtered out of the inventory. -/
def iPending : Ec2Instance :=
  ⟨"i-0bbb", "pending", "t3.micro", [], "ap-south-1a",
   none, none, [], "disabled", [], none, "2024/01/02 00:00 GMT+5:30", none, "ip-10-0-0-2"⟩

/-- Sample stopped instance. -/
def iStopped : Ec2Instance :=
  ⟨"i-0ccc", "stopped", "t3.small", [("Name", "db-host")], "ap-south-1b",
   none, none, [], "disabled", ["default"], none, "2024/01/03 00:00 GMT+5:30", none, "ip-10-0-0-3"⟩

/-- Sample fleet with one instance per interesting state. -/
def sampleFleet : List Ec2Instance := [iRunning, iPending, iStopped]

/-- EC2 environment whose listing succeeds on the sample fleet and whose
metric queries all raise. -/
def sampleEc2Env : Ec2Env :=
  ⟨Except.ok sampleFleet, [], [], fun _ => [], fun _ => Except.error ()⟩

/-- EC2 environment whose listing succeeds with zero instances. -/
def emptyEc2Env : Ec2Env :=
  ⟨Except.ok [], [], [], fun _ => [], fun _ => Except.error ()⟩

/-- EC2 environment whose listing call raises. -/
def failEc2Env : Ec2Env :=
  ⟨Except.error (), [], [], fun _ => [], fun _ => Except.error ()⟩

/-- Sample RDS instance. -/
def sampleRds : RdsInstance :=
  ⟨"db-1", "db.t3.micro", "postgres", "available", false, "ap-south-1a", "gp2", 20⟩

/-- RDS environment whose listing succeeds on one database and whose
metric queries all raise. -/
def sampleRdsEnv : RdsEnv := ⟨Except.ok [sampleRds], fun _ => Except.error ()⟩

/-- RDS environment whose listing succeeds with zero databases. -/
def emptyRdsEnv : RdsEnv := ⟨Except.ok [], fun _ => Except.error ()⟩

/-- RDS environment whose listing call raises. -/
def failRdsEnv : RdsEnv := ⟨Except.error (), fun _ => Except.error ()⟩

/-- ECS environment with one cluster that has no services. -/
def noServiceEcsEnv : EcsEnv :=
  ⟨Except.ok [⟨"arn:aws:ecs:region:acct:cluster/empty-cluster", []⟩],
   fun _ _ => Except.error ()⟩

lemma ecs_rows_length (c : EcsEnv) (cls : List EcsCluster) :
    (get_ecs_report_data c cls).length = (ecsFetchKeys cls).length := by
  induction cls with
  | nil => rfl
  | cons cl t ih =>
    simp only [get_ecs_report_data, ecsFetchKeys, List.flatMap_cons, List.length_append,
      List.length_map]
    simp only [get_ecs_report_data, ecsFetchKeys] at ih
    rw [ih]

/-- C9: if the initial inventory listing call raises, the report aborts
with no partial result: no metric query is issued and no spreadsheet
file is written (EC2 and RDS reports; the only handler is the outer
try of main). -/
theorem listing_failure_aborts (e : Ec2Env) (r : RdsEnv)
    (he : e.listing = Except.error ()) (hr : r.listing = Except.error ()) :
    EC2.main e = ⟨[], none⟩ ∧ RDS.main r = ⟨[], none⟩ := by
  constructor
  · simp only [EC2.main, he]
  · simp only [RDS.main, hr]

/-- C9 witness: environments whose listing raises. -/
theorem listing_failure_aborts_witness :
    EC2.main failEc2Env = ⟨[], none⟩ ∧ RDS.main failRdsEnv = ⟨[], none⟩ :=
  listing_failure_aborts failEc2Env failRdsEnv rfl rfl

/-- C7: a run whose inventory listing yields zero resources issues no
metric query and writes no file, returning normally, for all three
reports (for ECS, an empty report row list forces an empty metric query
list since each service contributes exactly one of each). -/
theorem empty_inventory_skips (e : Ec2Env) (r : RdsEnv) (c : EcsEnv) :
    (∀ fleet, e.listing = Except.ok fleet → get_ec2_instance_details e fleet = [] →
      EC2.main e = ⟨[], none⟩)
    ∧ (∀ dbs, r.listing = Except.ok dbs → get_rds_instance_details dbs = [] →
      RDS.main r = ⟨[], none⟩)
    ∧ (∀ cls, c.listing = Except.ok cls → get_ecs_report_data c cls = [] →
      ECS.main c = ⟨[], none⟩) := by
  refine ⟨?_, ?_, ?_⟩
  · intro fleet hl hE
    simp only [EC2.main, hl, hE, if_true]
  · intro dbs hl hE
    simp only [RDS.main, hl, hE, if_true]
  · intro cls hl hE
    have hkeys : ecsFetchKeys cls = [] := by
      have hlen := ecs_rows_length c cls
      rw [hE] at hlen
      exact List.eq_nil_of_length_eq_zero hlen.symm
    simp only [ECS.main, hl, hE, hkeys, if_true]

/-- C7 witness: empty fleets for EC2 and RDS, and an ECS run with one
cluster holding no services. -/
theorem empty_inventory_skips_witness :
    EC2.main emptyEc2Env = ⟨[], none⟩ ∧ RDS.main emptyRdsEnv = ⟨[], none⟩
    ∧ ECS.main noServiceEcsEnv = ⟨[], none⟩ :=
  ⟨(empty_inventory_skips emptyEc2Env emptyRdsEnv noServiceEcsEnv).1 [] rfl rfl,
   (empty_inventory_skips emptyEc2Env emptyRdsEnv noServiceEcsEnv).2.1 [] rfl rfl,
   (empty_inventory_skips emptyEc2Env emptyRdsEnv noServiceEcsEnv).2.2
     [⟨"arn:aws:ecs:region:acct:cluster/empty-cluster", []⟩] rfl rfl⟩

/-- C4: with a non-empty inventory, the exported metrics table has exactly
one row per inventory row, and the i-th metrics row's Name cell holds the
i-th inventory row's resource key (EC2: the Name tag value; RDS: the
DBInstanceIdentifier); the ECS report builds one combined row per metric
query instead of a second table. -/
theorem rows_one_to_one (e : Ec2Env) (r : RdsEnv) (c : EcsEnv)
    (fleet : List Ec2Instance) (dbs : List RdsInstance) (cls : List EcsCluster)
    (he : e.listing = Except.ok fleet) (hne : get_ec2_instance_details e fleet ≠ [])
    (hr : r.listing = Except.ok dbs) (hnr : get_rds_instance_details dbs ≠ []) :
    (∃ mets, (EC2.main e).exported = some (get_ec2_instance_details e fleet, mets)
      ∧ mets.length = (get_ec2_instance_details e fleet).length
      ∧ ∀ i (h1 : i < mets.length) (h2 : i < (get_ec2_instance_details e fleet).length),
          lookupCell (mets.get ⟨i, h1⟩) "Name"
            = some ((get_ec2_instance_details e fleet).get ⟨i, h2⟩).name)
    ∧ (∃ mets, (RDS.main r).exported = some (get_rds_instance_details dbs, mets)
      ∧ mets.length = (get_rds_instance_details dbs).length
      ∧ ∀ i (h1 : i < mets.length) (h2 : i < (get_rds_instance_details dbs).length),
          lookupCell (mets.get ⟨i, h1⟩) "Name"
            = some ((get_rds_instance_details dbs).get ⟨i, h2⟩).dbInstanceIdentifier)
    ∧ (get_ecs_report_data c cls).length = (ecsFetchKeys cls).length := by
  have hmainE : EC2.main e =
      ⟨(get_ec2_instance_details e fleet).map (fun d => d.instanceId),
       some (get_ec2_instance_details e fleet, (get_ec2_instance_details e fleet).map
         (fun d => EC2.get_cloudwatch_metrics d.name EC2_METRICS (e.fetchMetrics d.instanceId)))⟩ := by
    simp only [EC2.main, he]
    rw [if_neg hne]
  have hmainR : RDS.main r =
      ⟨(get_rds_instance_details dbs).map (fun d => d.dbInstanceIdentifier),
       some (get_rds_instance_details dbs, (get_rds_instance_details dbs).map
         (fun d => RDS.get_cloudwatch_metrics d.dbInstanceIdentifier RDS_METRICS
           (r.fetchMetrics d.dbInstanceIdentifier)))⟩ := by
    simp only [RDS.main, hr]
    rw [if_neg hnr]
  refine ⟨⟨_, by rw [hmainE], by rw [List.length_map], ?_⟩,
    ⟨_, by rw [hmainR], by rw [List.length_map], ?_⟩, ecs_rows_length c cls⟩
  · intro i h1 h2
    rw [List.get_map]
    simp only [EC2.get_cloudwatch_metrics]
    rw [lookupCell_cons, if_pos rfl]
  · intro i h1 h2
    rw [List.get_map]
    simp only [RDS.get_cloudwatch_metrics]
    rw [lookupCell_cons, if_pos rfl]

/-- C4 witness: on the sample environments the exported tables exist and
the inventory and metrics tables have equal length (2 EC2 rows after the
state filter, 1 RDS row). -/
theorem rows_one_to_one_witness :
    (EC2.main sampleEc2Env).exported.map (fun p => (p.1.length, p.2.length)) = some (2, 2)
    ∧ (RDS.main sampleRdsEnv).exported.map (fun p => (p.1.length, p.2.length)) = some (1, 1) := by
  obtain ⟨⟨m1, hm1, hl1, _⟩, ⟨m2, hm2, hl2, _⟩, _⟩ :=
    rows_one_to_one sampleEc2Env sampleRdsEnv noServiceEcsEnv sampleFleet [sampleRds] []
      rfl (by decide) rfl (by decide)
  constructor
  · rw [hm1]
    have hd : (get_ec2_instance_details sampleEc2Env sampleFleet).length = 2 := by decide
    simp only [Option.map_some', hl1, hd]
  · rw [hm2]
    have hd : (get_rds_instance_details [sampleRds]).length = 1 := by decide
    simp only [Option.map_some', hl2, hd]

/-- C2: when the metric query for a resource raises, every requested
metric's Min, Max and Avg cells hold the Error sentinel, and the report
still exports that resource's inventory row together with its metrics row
(shown on the EC2 report, and on the ECS cell builder for its batch). -/
theorem metric_error_sentinel (e : Ec2Env) (fleet : List Ec2Instance)
    (d : Ec2DetailRow) (m suf m2 : String)
    (he : e.listing = Except.ok fleet)
    (hd : d ∈ get_ec2_instance_details e fleet)
    (hf : e.fetchMetrics d.instanceId = Except.error ())
    (hm : m ∈ EC2_METRICS) (hm2 : m2 ∈ ECS_METRICS)
    (hsuf : suf = " Min" ∨ suf = " Max" ∨ suf = " Avg") :
    (∃ mets, (EC2.main e).exported = some (get_ec2_instance_details e fleet, mets)
      ∧ d ∈ get_ec2_instance_details e fleet
      ∧ EC2.get_cloudwatch_metrics d.name EC2_METRICS (e.fetchMetrics d.instanceId) ∈ mets)
    ∧ lookupCell (EC2.get_cloudwatch_metrics d.name EC2_METRICS (e.fetchMetrics d.instanceId))
        (m ++ suf) = some "Error"
    ∧ lookupCell (ECS.get_cloudwatch_metrics (Except.error ())) (m2 ++ suf) = some "Error" := by
  have hne : get_ec2_instance_details e fleet ≠ [] := by
    intro hE
    rw [hE] at hd
    cases hd
  have hmainE : EC2.main e =
      ⟨(get_ec2_instance_details e fleet).map (fun d2 => d2.instanceId),
       some (get_ec2_instance_details e fleet, (get_ec2_instance_details e fleet).map
         (fun d2 => EC2.get_cloudwatch_metrics d2.name EC2_METRICS (e.fetchMetrics d2.instanceId)))⟩ := by
    simp only [EC2.main, he]
    rw [if_neg hne]
  refine ⟨⟨_, by rw [hmainE], hd, ?_⟩, ?_, ?_⟩
  · exact List.mem_map_of_mem _ hd
  · rw [hf]
    simp only [EC2.get_cloudwatch_metrics]
    rw [lookupCell_cons_name hsuf]
    exact lookupCell_errorCells (by decide) hm hsuf
  · simp only [ECS.get_cloudwatch_metrics]
    exact lookupCell_errorCells (by decide) hm2 hsuf

/-- C2 witness: the sample environment's metric queries all raise; the
running instance's row is exported and its cells are Error. -/
theorem metric_error_sentinel_witness :
    lookupCell (EC2.get_cloudwatch_metrics (ec2DetailRow sampleEc2Env iRunning).name
        EC2_METRICS (sampleEc2Env.fetchMetrics (ec2DetailRow sampleEc2Env iRunning).instanceId))
      ("CPUUtilization" ++ " Avg") = some "Error"
    ∧ lookupCell (ECS.get_cloudwatch_metrics (Except.error ()))
        ("MemoryUtilization" ++ " Avg") = some "Error" := by
  have h := metric_error_sentinel sampleEc2Env sampleFleet
    (ec2DetailRow sampleEc2Env iRunning) "CPUUtilization" " Avg" "MemoryUtilization"
    rfl (by decide) rfl (by decide) (by decide) (Or.inr (Or.inr rfl))
  exact ⟨h.2.1, h.2.2⟩

/-- C10: the EC2 inventory holds exactly the running or stopped instances
of the fleet: every inventory row comes from such an instance and shows
that state, and every running or stopped instance contributes its row. -/
theorem ec2_state_filter (e : Ec2Env) (fleet : List Ec2Instance) :
    (∀ row ∈ get_ec2_instance_details e fleet,
      (row.instanceState = "running" ∨ row.instanceState = "stopped")
      ∧ ∃ i ∈ fleet, (i.stateName = "running" ∨ i.stateName = "stopped")
          ∧ row = ec2DetailRow e i)
    ∧ (∀ i ∈ fleet, (i.stateName = "running" ∨ i.stateName = "stopped") →
      ec2DetailRow e i ∈ get_ec2_instance_details e fleet) := by
  constructor
  · intro row hrow
    simp only [get_ec2_instance_details, List.mem_map] at hrow
    obtain ⟨i, hi, rfl⟩ := hrow
    simp only [awsFilterInstances, List.mem_filter] at hi
    have hstate : i.stateName = "running" ∨ i.stateName = "stopped" := by
      have hcond := hi.2
      simp only [Bool.or_eq_true, beq_iff_eq] at hcond
      exact hcond
    exact ⟨hstate, i, hi.1, hstate, rfl⟩
  · intro i hi hstate
    simp only [get_ec2_instance_details, List.mem_map]
    refine ⟨i, ?_, rfl⟩
    simp only [awsFilterInstances, List.mem_filter]
    refine ⟨hi, ?_⟩
    simp only [Bool.or_eq_true, beq_iff_eq]
    exact hstate

/-- C10 witness: on the sample fleet the running and stopped instances'
rows are in the inventory, the pending instance's row is not, and the
running row shows its state. -/
theorem ec2_state_filter_witness :
    ((ec2DetailRow sampleEc2Env iRunning).instanceState = "running"
      ∨ (ec2DetailRow sampleEc2Env iRunning).instanceState = "stopped")
    ∧ ec2DetailRow sampleEc2Env iRunning ∈ get_ec2_instance_details sampleEc2Env sampleFleet
    ∧ ec2DetailRow sampleEc2Env iStopped ∈ get_ec2_instance_details sampleEc2Env sampleFleet
    ∧ ec2DetailRow sampleEc2Env iPending ∉ get_ec2_instance_details sampleEc2Env sampleFleet := by
  have h := ec2_state_filter sampleEc2Env sampleFleet
  have hrun := h.2 iRunning (by decide) (Or.inl rfl)
  exact ⟨(h.1 (ec2DetailRow sampleEc2Env iRunning) hrun).1, hrun,
    h.2 iStopped (by decide) (Or.inr rfl), by decide⟩

/-- C8: main.py starts the three reports unconditionally in order, and a
report call that raises contributes a logged failure while the later
reports still run. -/
theorem orchestrator_runs_all (e r c : Except Unit Unit) :
    [OrchStep.ec2Run, OrchStep.rdsRun, OrchStep.ecsRun].Sublist (MainPy.main e r c)
    ∧ (e = Except.error () → OrchStep.ec2Failed ∈ MainPy.main e r c)
    ∧ (r = Except.error () → OrchStep.rdsFailed ∈ MainPy.main e r c)
    ∧ (c = Except.error () → OrchStep.ecsFailed ∈ MainPy.main e r c) := by
  rcases e with ⟨⟨⟩⟩ | ⟨⟨⟩⟩ <;> rcases r with ⟨⟨⟩⟩ | ⟨⟨⟩⟩ <;> rcases c with ⟨⟨⟩⟩ | ⟨⟨⟩⟩ <;>
    refine ⟨by decide, ?_, ?_, ?_⟩ <;> intro h <;>
      first
        | decide
        | exact absurd h (by simp)

/-- C8 witness: all three report calls raising still yields all three run
steps, with all three failures logged. -/
theorem orchestrator_runs_all_witness :
    [OrchStep.ec2Run, OrchStep.rdsRun, OrchStep.ecsRun].Sublist
      (MainPy.main (Except.error ()) (Except.error ()) (Except.error ()))
    ∧ OrchStep.ec2Failed ∈ MainPy.main (Except.error ()) (Except.error ()) (Except.error ())
    ∧ OrchStep.rdsFailed ∈ MainPy.main (Except.error ()) (Except.error ()) (Except.error ())
    ∧ OrchStep.ecsFailed ∈ MainPy.main (Except.error ()) (Except.error ()) (Except.error ()) := by
  have h := orchestrator_runs_all (Except.error ()) (Except.error ()) (Except.error ())
  exact ⟨h.1, h.2.1 rfl, h.2.2.1 rfl, h.2.2.2 rfl⟩
